import Mathlib

/-!
Shallow embedding of the cache/analysis core of the `jarvis` repository
(`cache_manager.py`, `code_analyzer.py`) and proofs about it.

Conventions of the embedding:
* JSON-like Python values are the inductive `Json` below; `json.dumps(data,
  sort_keys=True)` is `dumps`.
* Wall-clock times (`time.time()`) are integers (`Int`); only comparisons and
  subtraction of timestamps occur in the source, so the integer abstraction is
  faithful to every claim considered here.
* Cryptographic digests (`hashlib.sha256(...).hexdigest()`,
  `hashlib.md5(...).hexdigest()`) are modelled symbolically as the pair
  (algorithm, input string): an ideal digest is injective on inputs, and the
  algorithm tag records its output width.  No claim below depends on concrete
  digest values, only on determinism of the input string and on which
  algorithm is applied.
* Fallible filesystem operations are modelled by explicit per-file fault
  flags (`readFails`, `removeFails`) and by `Except` results: a Python
  exception that escapes the function is `Except.error`.
-/

namespace Jarvis

/-! ## JSON values and `json.dumps(·, sort_keys=True)` -/

/-- JSON-like Python data: the values `cache_manager.CacheManager` accepts as
`key_data` (mappings, sequences, scalars).  Object fields are an association
list recording insertion order, as in a Python dict. -/
inductive Json where
  | null : Json
  | bool (b : Bool) : Json
  | int (n : Int) : Json
  | str (s : String) : Json
  | arr (elts : List Json) : Json
  | obj (fields : List (String × Json)) : Json

/-- Lowercase hexadecimal digit, as produced by Python string escapes. -/
def hexDigit (n : Nat) : Char :=
  if n < 10 then Char.ofNat (48 + n) else Char.ofNat (87 + n)

/-- Four-digit lowercase hex, for `\uXXXX` escapes. -/
def hex4 (n : Nat) : String :=
  String.mk [hexDigit (n / 4096 % 16), hexDigit (n / 256 % 16),
             hexDigit (n / 16 % 16), hexDigit (n % 16)]

/-- The `\uXXXX` escape of a code point, using a surrogate pair beyond the
basic multilingual plane, exactly as CPython's `json` with `ensure_ascii`. -/
def uescape (n : Nat) : String :=
  if n ≤ 0xFFFF then "\\u" ++ hex4 n
  else
    let m := n - 0x10000
    "\\u" ++ hex4 (0xD800 + m / 0x400) ++ "\\u" ++ hex4 (0xDC00 + m % 0x400)

/-- Escape of one character inside a JSON string literal (CPython `json` with
its default `ensure_ascii=True`: short escapes for the usual control
characters, `\uXXXX` for everything outside the printable ASCII range). -/
def escapeChar (c : Char) : String :=
  if c = '"' then "\\\""
  else if c = '\\' then "\\\\"
  else if c = '\n' then "\\n"
  else if c = '\t' then "\\t"
  else if c = '\r' then "\\r"
  else if c.toNat = 8 then "\\b"
  else if c.toNat = 12 then "\\f"
  else if c.toNat < 0x20 ∨ c.toNat > 0x7e then uescape c.toNat
  else String.singleton c

/-- A JSON string literal with quotes, `json.dumps` style. -/
def jsonQuote (s : String) : String :=
  "\"" ++ String.join (s.data.map escapeChar) ++ "\""

/-- Ordering of serialized object fields by key.  `json.dumps(...,
sort_keys=True)` sorts `dict.items()`; dict keys are unique, so only the keys
are ever compared.  Lean's `String` order is code-point lexicographic, as is
Python's. -/
def pairLe (p q : String × String) : Prop := p.1 ≤ q.1

instance : DecidableRel pairLe := fun p q => inferInstanceAs (Decidable (p.1 ≤ q.1))

instance : IsTotal (String × String) pairLe := ⟨fun p q => le_total p.1 q.1⟩

instance : IsTrans (String × String) pairLe := ⟨fun _ _ _ h h' => le_trans h h'⟩

/-- Sort serialized object fields by key. -/
def sortPairs (l : List (String × String)) : List (String × String) :=
  List.insertionSort pairLe l

/-- One serialized object field, with the default `": "` separator. -/
def fieldStr (p : String × String) : String := jsonQuote p.1 ++ ": " ++ p.2

mutual

/-- `json.dumps(data, sort_keys=True)` (`cache_manager.py` line 48): default
separators `", "` / `": "`, `ensure_ascii`, and mapping keys sorted
lexicographically at every nesting level.  Values are serialized and carried
along while the fields are sorted by key; since dict keys are unique this is
the same output as sorting the items first. -/
def dumps : Json → String
  | .null => "null"
  | .bool b => if b then "true" else "false"
  | .int n => toString n
  | .str s => jsonQuote s
  | .arr l => "[" ++ String.intercalate ", " (dumpsList l) ++ "]"
  | .obj l => "\x7b" ++ String.intercalate ", " ((sortPairs (dumpsPairs l)).map fieldStr) ++ "\x7d"

/-- Serialize each element of a JSON array. -/
def dumpsList : List Json → List String
  | [] => []
  | x :: r => dumps x :: dumpsList r

/-- Serialize the value of each object field, keeping the key. -/
def dumpsPairs : List (String × Json) → List (String × String)
  | [] => []
  | (k, v) :: r => (k, dumps v) :: dumpsPairs r

end

/-! ## Digests, symbolically -/

/-- The digest algorithms used by the repository. -/
inductive HashAlg where
  | md5 : HashAlg
  | sha256 : HashAlg
deriving DecidableEq

/-- Output width in bits of each digest algorithm. -/
def HashAlg.bits : HashAlg → Nat
  | .md5 => 128
  | .sha256 => 256

/-- A digest value, modelled symbolically as the algorithm applied to an input
string (an ideal digest is injective on its input). -/
structure HashVal where
  alg : HashAlg
  input : String
deriving DecidableEq

/-- `CacheManager._generate_key` (`cache_manager.py` lines 37-50):
`hashlib.sha256(json.dumps(data, sort_keys=True).encode()).hexdigest()`. -/
def CacheManager.generate_key (data : Json) : HashVal :=
  ⟨.sha256, dumps data⟩

/-- One file met by the `os.walk` in `code_analyzer._generate_cache_key`:
its path, and `(mtime, size)` when `os.path.getmtime`/`getsize` succeed
(`None` models the `except OSError` branch).  `mtime` is reported in integer
seconds here. -/
structure WalkFile where
  path : String
  stat : Option (Int × Nat)

/-- The `f"{file_path}:{mtime}:{size}"` entry of `files_info`
(`code_analyzer.py` lines 249-255); on `OSError`, just the path. -/
def fileInfoStr (w : WalkFile) : String :=
  match w.stat with
  | some (m, sz) => w.path ++ ":" ++ toString m ++ ":" ++ toString sz
  | none => w.path

/-- `code_analyzer._generate_cache_key` (lines 229-259): the directory
fingerprint.  If the directory does not exist, `md5(directory)`; otherwise
`md5(directory + "|" + "|".join(files_info))`.  Note it is `hashlib.md5` in
both branches. -/
def generate_cache_key (directory : String) (isDir : Bool) (walk : List WalkFile) : HashVal :=
  if !isDir then ⟨.md5, directory⟩
  else ⟨.md5, directory ++ "|" ++ String.intercalate "|" (walk.map fileInfoStr)⟩

/-! ## Cache store state -/

/-- An in-memory cache entry: the dict `{"timestamp": ..., "data": ...}`. -/
structure MemEntry where
  timestamp : Int
  data : Json

/-- Contents of a persisted cache file as seen by `json.load` plus the
subscripts: a well-formed entry, unparsable bytes (`json.JSONDecodeError`), or
valid JSON missing the `"timestamp"`/`"data"` fields (`KeyError`). -/
inductive FileContent where
  | entry (timestamp : Int) (data : Json) : FileContent
  | garbage : FileContent
  | badEntry : FileContent

/-- A cache file together with its environment-fault flags: `readFails` means
`open`/read raises `OSError`, `removeFails` means `os.remove` on it raises
`OSError`. -/
structure FileState where
  content : FileContent
  readFails : Bool
  removeFails : Bool

/-- State of one `CacheManager`: the in-memory dict `self.memory_cache`, the
file-tier directory (a finite map, filename stem = key), and whether
`os.listdir` on the cache directory raises. -/
structure CacheState where
  memory : List (HashVal × MemEntry)
  files : List (HashVal × FileState)
  listDirFails : Bool

/-- A Python exception escaping a cache operation. -/
inductive PyErr where
  | osError : PyErr
deriving DecidableEq

/-- Dictionary lookup on an association list. -/
def lookupKV {β : Type} : List (HashVal × β) → HashVal → Option β
  | [], _ => none
  | (k, v) :: r, key => if k = key then some v else lookupKV r key

/-- Dictionary store `d[key] = v`: replace in place, or append. -/
def insertKV {β : Type} : List (HashVal × β) → HashVal → β → List (HashVal × β)
  | [], key, v => [(key, v)]
  | (k, w) :: r, key, v => if k = key then (key, v) :: r else (k, w) :: insertKV r key v

/-- Dictionary delete `del d[key]` / file delete `os.remove`. -/
def eraseKV {β : Type} : List (HashVal × β) → HashVal → List (HashVal × β)
  | [], _ => []
  | (k, w) :: r, key => if k = key then r else (k, w) :: eraseKV r key

/-- The `except (json.JSONDecodeError, KeyError, OSError)` handler of
`CacheManager.get` (lines 99-102): if the file still exists, `os.remove` it —
and this `os.remove` is NOT itself protected, so if the delete fails the
`OSError` escapes `get`. -/
def CacheManager.getExceptHandler (s : CacheState) (key : HashVal) (fs : FileState) :
    Except PyErr (Option Json × CacheState) :=
  if fs.removeFails then .error .osError
  else .ok (none, { s with files := eraseKV s.files key })

/-- The file-tier half of `CacheManager.get` (lines 84-104). -/
def CacheManager.getFile (s : CacheState) (ttl now : Int) (key : HashVal) :
    Except PyErr (Option Json × CacheState) :=
  match lookupKV s.files key with
  | none => .ok (none, s)
  | some fs =>
    if fs.readFails then CacheManager.getExceptHandler s key fs
    else
      match fs.content with
      | .garbage => CacheManager.getExceptHandler s key fs
      | .badEntry => CacheManager.getExceptHandler s key fs
      | .entry ts v =>
        if now - ts < ttl then
          .ok (some v, { s with memory := insertKV s.memory key ⟨ts, v⟩ })
        else
          if fs.removeFails then CacheManager.getExceptHandler s key fs
          else .ok (none, { s with files := eraseKV s.files key })

/-- `CacheManager.get` (`cache_manager.py` lines 64-104), with `ttl`
= `self.max_age_seconds` and `now` = `time.time()`. -/
def CacheManager.get (s : CacheState) (ttl now : Int) (key_data : Json) :
    Except PyErr (Option Json × CacheState) :=
  let key := CacheManager.generate_key key_data
  match lookupKV s.memory key with
  | some e =>
    if now - e.timestamp < ttl then .ok (some e.data, s)
    else CacheManager.getFile { s with memory := eraseKV s.memory key } ttl now key
  | none => CacheManager.getFile s ttl now key

/-- `CacheManager.set` (`cache_manager.py` lines 106-130): stamp `now`, store
in memory, then try to write the file; `writeFails` models the `except
OSError: pass` around the file write, under which the write is skipped. -/
def CacheManager.set (s : CacheState) (now : Int) (key_data value : Json)
    (writeFails : Bool) : CacheState :=
  let key := CacheManager.generate_key key_data
  let s := { s with memory := insertKV s.memory key ⟨now, value⟩ }
  if writeFails then s
  else { s with files := insertKV s.files key ⟨.entry now value, false, false⟩ }

/-- One iteration of the file sweep in `CacheManager.clear` (lines 157-175):
returns the updated removed-count and whether the file survives. -/
def CacheManager.clearFileStep (now maxAge : Int) (count : Nat) (fs : FileState) :
    Nat × Bool :=
  if fs.readFails then
    (if fs.removeFails then count else count + 1, fs.removeFails)
  else
    match fs.content with
    | .entry ts _ =>
      if now - ts > maxAge then
        (if fs.removeFails then count else count + 1, fs.removeFails)
      else (count, true)
    | _ => (if fs.removeFails then count else count + 1, fs.removeFails)

/-- `CacheManager.clear` (`cache_manager.py` lines 132-177): sweep the memory
dict, then `os.listdir` the cache directory (unprotected: if it raises, the
`OSError` escapes with the memory tier already swept) and sweep the files. -/
def CacheManager.clear (s : CacheState) (now maxAge : Int) :
    Except PyErr (Nat × CacheState) :=
  let memory := s.memory.filter (fun kv => !(decide (now - kv.2.timestamp > maxAge)))
  let memRemoved := s.memory.length - memory.length
  if s.listDirFails then .error .osError
  else
    let step := fun (acc : Nat × List (HashVal × FileState)) (kv : HashVal × FileState) =>
      let (c, keep) := CacheManager.clearFileStep now maxAge acc.1 kv.2
      (c, if keep then acc.2 ++ [kv] else acc.2)
    let (c, files) := s.files.foldl step (memRemoved, [])
    .ok (c, { s with memory := memory, files := files })

/-! ## Code structure extractor (`code_analyzer.CodeAnalyzer`) -/

/-- `FunctionInfo` as built by `CodeAnalyzer.visit_FunctionDef`
(`code_analyzer.py` lines 37-46). -/
structure FuncInfo where
  name : String
  lineno : Nat
  args : List String
  docstring : Option String
deriving DecidableEq

/-- `ClassInfo` as built by `CodeAnalyzer.visit_ClassDef` (lines 48-71). -/
structure ClassInfo where
  name : String
  lineno : Nat
  bases : List String
  methods : List FuncInfo
  docstring : Option String
deriving DecidableEq

/-- Python statements, restricted to the node kinds the visitor cares about.
`other` stands for any statement with no nested definitions (expressions,
assignments, imports, ...). -/
inductive Stmt where
  | funcDef (name : String) (lineno : Nat) (args : List String)
      (docstring : Option String) (body : List Stmt) : Stmt
  | classDef (name : String) (lineno : Nat) (bases : List String)
      (docstring : Option String) (body : List Stmt) : Stmt
  | ifStmt (body orelse : List Stmt) : Stmt
  | other : Stmt

/-- The visitor's mutable state: `self.functions` and `self.classes`. -/
structure AState where
  functions : List FuncInfo
  classes : List ClassInfo
deriving DecidableEq

mutual

/-- `ast.NodeVisitor.visit` over a statement list, for `CodeAnalyzer`:
* `visit_FunctionDef` (lines 37-46) appends the function info and then
  `generic_visit`s the body (so nested definitions are visited too);
* `visit_ClassDef` (lines 48-71) swaps `self.functions` for an empty list,
  visits only the direct `ast.FunctionDef` children of the class body,
  records the collected list as the class's methods, restores
  `self.functions`, and appends the class (there is no `generic_visit`, so
  other children of the class body are never visited);
* `if` has no handler, so `generic_visit` descends into both branches;
* any other statement contributes nothing. -/
def visitList (st : AState) : List Stmt → AState
  | [] => st
  | .funcDef n ln a d body :: rest =>
    visitList (visitList { st with functions := st.functions ++ [⟨n, ln, a, d⟩] } body) rest
  | .classDef n ln bs d body :: rest =>
    let st2 := visitClassChildren { st with functions := [] } body
    visitList { st2 with
      functions := st.functions,
      classes := st2.classes ++ [⟨n, ln, bs, st2.functions, d⟩] } rest
  | .ifStmt body orelse :: rest =>
    visitList (visitList (visitList st body) orelse) rest
  | .other :: rest => visitList st rest

/-- The `for child in node.body: if isinstance(child, ast.FunctionDef):
self.visit(child)` loop of `visit_ClassDef` (lines 63-65). -/
def visitClassChildren (st : AState) : List Stmt → AState
  | [] => st
  | .funcDef n ln a d body :: rest =>
    visitClassChildren (visitList { st with functions := st.functions ++ [⟨n, ln, a, d⟩] } body) rest
  | _ :: rest => visitClassChildren st rest

end

/-- `analyze_file` on an already-parsed module: `CodeAnalyzer().visit(tree)`
where `tree` is an `ast.Module` (no `visit_Module` handler, so
`generic_visit` walks the top-level statement list). -/
def analyzeModule (body : List Stmt) : AState :=
  visitList ⟨[], []⟩ body

/-- The `top_level_functions` filter of `generate_file_context`
(`code_analyzer.py` lines 475-477): keep a function unless its NAME occurs in
some class's method-name list. -/
def top_level_functions (st : AState) : List FuncInfo :=
  st.functions.filter fun f =>
    !(st.classes.any fun c => c.methods.any fun m => m.name = f.name)

/-! Specification-side characterizations of the visitor (these are proved
equal to what the visitor computes; they are the statement language for the
attribution claims). -/

/-- The function definitions reachable from a statement list without entering
a `class` definition, in visit (preorder) order. -/
def freeFuncs : List Stmt → List FuncInfo
  | [] => []
  | .funcDef n ln a d b :: r => ⟨n, ln, a, d⟩ :: (freeFuncs b ++ freeFuncs r)
  | .classDef _ _ _ _ _ :: r => freeFuncs r
  | .ifStmt b e :: r => (freeFuncs b ++ freeFuncs e) ++ freeFuncs r
  | .other :: r => freeFuncs r

/-- The method list the visitor computes for a class body: each direct
`funcDef` child, followed by the functions nested in its body (not crossing a
nested `class`). -/
def methodsOf : List Stmt → List FuncInfo
  | [] => []
  | .funcDef n ln a d b :: r => ⟨n, ln, a, d⟩ :: (freeFuncs b ++ methodsOf r)
  | _ :: r => methodsOf r

mutual

/-- The classes recorded while visiting a statement list, in the order the
visitor appends them (a class is appended after the classes found inside its
method bodies). -/
def classesOf : List Stmt → List ClassInfo
  | [] => []
  | .funcDef _ _ _ _ b :: r => classesOf b ++ classesOf r
  | .classDef n ln bs d body :: r =>
    (classesInClassBody body ++ [⟨n, ln, bs, methodsOf body, d⟩]) ++ classesOf r
  | .ifStmt b e :: r => (classesOf b ++ classesOf e) ++ classesOf r
  | .other :: r => classesOf r

/-- Classes found inside the bodies of the direct `funcDef` children of a
class body (other children are never visited). -/
def classesInClassBody : List Stmt → List ClassInfo
  | [] => []
  | .funcDef _ _ _ _ b :: r => classesOf b ++ classesInClassBody r
  | _ :: r => classesInClassBody r

end

/-! ## Prompt assembly (`code_analyzer.generate_prompt_for_openai`) -/

/-- A function entry as passed to the prompt assembler: the usual analysis
dict, with the optional `"_file"` annotation added by
`process_query_with_context`. -/
structure FuncDict where
  name : String
  args : List String
  docstring : Option String
  file : Option String
deriving DecidableEq

/-- A class entry as passed to the prompt assembler. -/
structure ClsDict where
  name : String
  bases : List String
  methods : List FuncDict
  docstring : Option String
deriving DecidableEq

/-- An element of the `functions` argument: a dict, or anything else (the
`isinstance(func, dict)` check), carried as its `str(...)` rendering. -/
inductive PromptFunc where
  | dict (d : FuncDict) : PromptFunc
  | other (s : String) : PromptFunc
deriving DecidableEq

/-- An element of the `classes` argument. -/
inductive PromptCls where
  | dict (c : ClsDict) : PromptCls
  | other (s : String) : PromptCls
deriving DecidableEq

/-- `os.path.basename`: the part after the last `/`. -/
def basename (p : String) : String :=
  (p.splitOn "/").getLastD ""

/-- `format_function_info` (`code_analyzer.py` lines 369-397), with the
optional `max_docstring_length` argument. -/
def format_function_info (fi : FuncDict) (maxDoc : Option Nat) : String :=
  let argsStr := if fi.args = [] then "sem argumentos" else String.intercalate ", " fi.args
  let doc := match fi.docstring with | none => "" | some s => s
  let doc :=
    match maxDoc with
    | some m => if doc ≠ "" ∧ doc.length > m then doc.take m ++ "..." else doc
    | none => doc
  let docStr := if doc ≠ "" then " - " ++ doc else ""
  let fileInfo :=
    match fi.file with
    | some fp => if fp = "" then "" else " [arquivo: " ++ basename fp ++ "]"
    | none => ""
  "função " ++ fi.name ++ "(" ++ argsStr ++ ")" ++ fileInfo ++ docStr

/-- `generate_prompt_for_openai` (`code_analyzer.py` lines 520-601).  The
result is `Except`: the source calls `format_class_info(cls,
max_docstring_length=150)` (line 562) although `format_class_info` (line 399)
accepts no such parameter, so reaching that call raises `TypeError`; that is
the `.error` case. -/
def generate_prompt_for_openai (functions : List PromptFunc) (classes : List PromptCls)
    (user_question : String) : Except Unit String :=
  let functions := functions.take 5
  let classes := classes.take 3
  let fstep := fun (acc : List String × Nat) (f : PromptFunc) =>
    match f with
    | .dict d =>
      let s := format_function_info d (some 150)
      (acc.1 ++ [s], acc.2 + s.length / 4)
    | .other s => (acc.1 ++ [s.take 200], acc.2 + 50)
  let (funcInfo, est) := functions.foldl fstep ([], user_question.length / 4)
  let cstep := fun (acc : List String × Nat) (c : PromptCls) =>
    match c with
    | .dict _ => Except.error ()
    | .other s => Except.ok (acc.1 ++ [s.take 200], acc.2 + 50)
  match classes.foldlM cstep (([] : List String), est) with
  | .error e => .error e
  | .ok (clsInfo, est) =>
    let (funcInfo, clsInfo) :=
      if est > 4000 then (funcInfo.take 3, clsInfo.take 2) else (funcInfo, clsInfo)
    let codeContext := "Contexto do código:\n" ++
      (if funcInfo ≠ [] then
        "Funções encontradas:\n- " ++ String.intercalate "\n- " funcInfo ++ "\n\n"
      else "Nenhuma função encontrada.\n\n") ++
      (if clsInfo ≠ [] then
        "Classes encontradas:\n- " ++ String.intercalate "\n- " clsInfo ++ "\n\n"
      else "Nenhuma classe encontrada.\n\n")
    .ok (codeContext ++ "Pergunta do usuário: " ++ user_question ++ "\n\n" ++
      "Por favor, responda à pergunta do usuário com base no contexto do código fornecido.")

/-! ## Association-list dictionary lemmas -/

theorem lookupKV_insertKV_self {β : Type} (l : List (HashVal × β)) (k : HashVal) (v : β) :
    lookupKV (insertKV l k v) k = some v := by
  induction l with
  | nil => simp [insertKV, lookupKV]
  | cons p r ih =>
    obtain ⟨a, b⟩ := p
    by_cases h : a = k <;> simp [insertKV, lookupKV, h, ih]

theorem lookupKV_eq_none_of_not_mem {β : Type} (l : List (HashVal × β)) (k : HashVal)
    (h : k ∉ l.map Prod.fst) : lookupKV l k = none := by
  induction l with
  | nil => rfl
  | cons p r ih =>
    obtain ⟨a, b⟩ := p
    have ha : ¬a = k := fun hak => h (by simp [hak])
    have hr : k ∉ r.map Prod.fst := fun hm => h (by simp [hm])
    simp [lookupKV, ha, ih hr]

theorem lookupKV_eraseKV_self {β : Type} (l : List (HashVal × β)) (k : HashVal)
    (hnd : (l.map Prod.fst).Nodup) : lookupKV (eraseKV l k) k = none := by
  induction l with
  | nil => rfl
  | cons p r ih =>
    obtain ⟨a, b⟩ := p
    simp at hnd
    by_cases h : a = k
    · subst h
      simpa [eraseKV] using lookupKV_eq_none_of_not_mem r a (by simpa using hnd.1)
    · simp [eraseKV, h, lookupKV, ih hnd.2]

/-! ## Cache store claim theorems -/

/-- C1: in a cache with positive ttl, `set(k, v)` immediately followed by
`get(k)` (same clock reading, no intervening operations) returns exactly the
stored value `v`, from any starting state and whether or not the file-tier
write succeeded. -/
theorem set_then_get_returns_value (s : CacheState) (ttl now : Int) (kd v : Json)
    (wf : Bool) (h : 0 < ttl) :
    CacheManager.get (CacheManager.set s now kd v wf) ttl now kd
      = .ok (some v, CacheManager.set s now kd v wf) := by
  unfold CacheManager.get CacheManager.set
  by_cases hw : wf <;>
    simp [hw, lookupKV_insertKV_self, sub_self, h]

theorem set_then_get_returns_value_witness :
    (0 : Int) < 1 ∧
    CacheManager.get (CacheManager.set ⟨[], [], false⟩ 0 .null (.str "resp") false) 1 0 .null
      = .ok (some (.str "resp"), CacheManager.set ⟨[], [], false⟩ 0 .null (.str "resp") false) :=
  ⟨by decide, set_then_get_returns_value ⟨[], [], false⟩ 1 0 .null (.str "resp") false (by decide)⟩

/-- C2: for an entry stored at `t0` with ttl `T`, a later `get` at time `t`
returns the value exactly when `t - t0 < T` and absent otherwise — and the
test is literally the same strict comparison whether the entry sits in both
tiers (after a `set`), only in the memory tier, or only in the file tier. -/
theorem expiry_strict_and_tier_consistent (s0 : CacheState) (t0 t T : Int) (kd v : Json) :
    ((CacheManager.get (CacheManager.set s0 t0 kd v false) T t kd).map Prod.fst
        = .ok (if t - t0 < T then some v else none))
    ∧ ((CacheManager.get ⟨[(CacheManager.generate_key kd, ⟨t0, v⟩)], [], false⟩ T t kd).map
          Prod.fst = .ok (if t - t0 < T then some v else none))
    ∧ ((CacheManager.get ⟨[], [(CacheManager.generate_key kd, ⟨.entry t0 v, false, false⟩)],
          false⟩ T t kd).map Prod.fst = .ok (if t - t0 < T then some v else none)) := by
  refine ⟨?_, ?_, ?_⟩ <;>
    by_cases hf : t - t0 < T <;>
      simp [CacheManager.get, CacheManager.set, CacheManager.getFile,
        CacheManager.getExceptHandler, Except.map, hf, lookupKV_insertKV_self, lookupKV]

/-- C3 (failing run): a cache file holding unparsable bytes whose deletion
also fails makes `get` RAISE: the `except` handler of `CacheManager.get`
(lines 99-102) calls `os.remove` unprotected, and an `OSError` thrown there
escapes to the caller instead of degrading to a miss. -/
theorem get_raises_when_cleanup_delete_fails :
    CacheManager.get ⟨[], [(CacheManager.generate_key .null, ⟨.garbage, false, true⟩)], false⟩
      86400 0 .null = .error .osError := by
  unfold CacheManager.get CacheManager.getFile CacheManager.getExceptHandler
  simp [lookupKV]

/-- C4: a file-tier entry holding unparsable garbage, for a key absent from
the memory tier, makes `get` return absent and delete the offending file
(corruption self-heals); afterwards the file no longer exists.  Stated for a
working filesystem (the open and the delete themselves succeed). -/
theorem get_self_heals_garbage (s : CacheState) (T now : Int) (kd : Json) (fs : FileState)
    (hnd : (s.files.map Prod.fst).Nodup)
    (hm : lookupKV s.memory (CacheManager.generate_key kd) = none)
    (hf : lookupKV s.files (CacheManager.generate_key kd) = some fs)
    (hc : fs.content = .garbage) (hr : fs.readFails = false) (hrm : fs.removeFails = false) :
    CacheManager.get s T now kd
      = .ok (none, { s with files := eraseKV s.files (CacheManager.generate_key kd) })
    ∧ lookupKV (eraseKV s.files (CacheManager.generate_key kd))
        (CacheManager.generate_key kd) = none := by
  constructor
  · unfold CacheManager.get CacheManager.getFile CacheManager.getExceptHandler
    simp [hm, hf, hc, hr, hrm]
  · exact lookupKV_eraseKV_self s.files _ hnd

theorem get_self_heals_garbage_witness :
    CacheManager.get ⟨[], [(CacheManager.generate_key .null, ⟨.garbage, false, false⟩)], false⟩
        86400 7 .null
      = .ok (none, ⟨[],
          eraseKV [(CacheManager.generate_key .null, ⟨.garbage, false, false⟩)]
            (CacheManager.generate_key .null), false⟩)
    ∧ lookupKV (eraseKV [(CacheManager.generate_key .null,
          (⟨.garbage, false, false⟩ : FileState))]
        (CacheManager.generate_key .null)) (CacheManager.generate_key .null) = none :=
  get_self_heals_garbage ⟨[], [(CacheManager.generate_key .null, ⟨.garbage, false, false⟩)],
    false⟩ 86400 7 .null ⟨.garbage, false, false⟩ (by simp) rfl (by simp [lookupKV]) rfl rfl rfl

/-- C7: a key fresh in the file tier and absent from the memory tier is
served from the file: `get` returns the stored value, copies the entry into
the memory tier with its ORIGINAL timestamp `t0` (it does not become
fresher), and leaves the file tier untouched by the read. -/
theorem get_promotes_preserving_timestamp (s : CacheState) (T now t0 : Int) (kd v : Json)
    (rmf : Bool)
    (hm : lookupKV s.memory (CacheManager.generate_key kd) = none)
    (hf : lookupKV s.files (CacheManager.generate_key kd) = some ⟨.entry t0 v, false, rmf⟩)
    (hfresh : now - t0 < T) :
    CacheManager.get s T now kd
      = .ok (some v, { s with
          memory := insertKV s.memory (CacheManager.generate_key kd) ⟨t0, v⟩ }) := by
  unfold CacheManager.get CacheManager.getFile
  simp [hm, hf, hfresh]

theorem get_promotes_preserving_timestamp_witness :
    CacheManager.get ⟨[], [(CacheManager.generate_key .null, ⟨.entry 2 (.str "v"), false,
        false⟩)], false⟩ 100 5 .null
      = .ok (some (.str "v"),
          ⟨insertKV [] (CacheManager.generate_key .null) ⟨2, .str "v"⟩,
           [(CacheManager.generate_key .null, ⟨.entry 2 (.str "v"), false, false⟩)], false⟩) :=
  get_promotes_preserving_timestamp ⟨[], [(CacheManager.generate_key .null,
    ⟨.entry 2 (.str "v"), false, false⟩)], false⟩ 100 5 2 .null (.str "v") false rfl
    (by simp [lookupKV]) (by decide)

/-! ## Determinism of key derivation (claim C5) -/

theorem dumpsPairs_eq_map (l : List (String × Json)) :
    dumpsPairs l = l.map (fun p => (p.1, dumps p.2)) := by
  induction l with
  | nil => simp [dumpsPairs]
  | cons p r ih =>
    obtain ⟨k, v⟩ := p
    simp [dumpsPairs, ih]

theorem dumpsPairs_keys (l : List (String × Json)) :
    (dumpsPairs l).map Prod.fst = l.map Prod.fst := by
  simp [dumpsPairs_eq_map, Function.comp]

theorem sortPairs_perm (l : List (String × String)) : (sortPairs l).Perm l :=
  List.perm_insertionSort pairLe l

theorem sortPairs_sorted (l : List (String × String)) : List.Sorted pairLe (sortPairs l) :=
  List.sorted_insertionSort pairLe l

/-- Two permuted association lists with the same key sequence and no duplicate
keys are equal. -/
theorem assoc_eq_of_perm_of_keys_eq {β : Type} {l1 l2 : List (String × β)} (hp : l1.Perm l2)
    (hk : l1.map Prod.fst = l2.map Prod.fst) (hnd : (l1.map Prod.fst).Nodup) : l1 = l2 := by
  induction l1 generalizing l2 with
  | nil => exact (hp.symm.eq_nil).symm
  | cons p t1 ih =>
    obtain ⟨k, v⟩ := p
    cases l2 with
    | nil => exact absurd hp.eq_nil (by simp)
    | cons q t2 =>
      obtain ⟨k2, v2⟩ := q
      simp only [List.map_cons, List.cons.injEq] at hk
      obtain ⟨hk1, hk2⟩ := hk
      subst hk1
      rw [List.map_cons, List.nodup_cons] at hnd
      have hmem : (k, v) ∈ (k, v2) :: t2 := hp.mem_iff.mp (List.mem_cons_self _ _)
      have hv : v = v2 := by
        rcases List.mem_cons.mp hmem with h | h
        · exact (Prod.mk.injEq _ _ _ _ ▸ h).2
        · exact absurd (hk2 ▸ List.mem_map.mpr ⟨(k, v), h, rfl⟩) hnd.1
      subst hv
      exact congrArg (List.cons (k, v)) (ih hp.cons_inv hk2 hnd.2)

/-- Sorting by key is permutation-invariant when keys are unique. -/
theorem sortPairs_eq_of_perm {l1 l2 : List (String × String)} (hp : l1.Perm l2)
    (hnd : (l1.map Prod.fst).Nodup) : sortPairs l1 = sortPairs l2 := by
  have hAB : (sortPairs l1).Perm (sortPairs l2) :=
    (sortPairs_perm l1).trans (hp.trans (sortPairs_perm l2).symm)
  have hsA : List.Sorted (α := String) (· ≤ ·) ((sortPairs l1).map Prod.fst) :=
    List.Pairwise.map Prod.fst (fun _ _ h => h) (sortPairs_sorted l1)
  have hsB : List.Sorted (α := String) (· ≤ ·) ((sortPairs l2).map Prod.fst) :=
    List.Pairwise.map Prod.fst (fun _ _ h => h) (sortPairs_sorted l2)
  have hkeys : (sortPairs l1).map Prod.fst = (sortPairs l2).map Prod.fst :=
    List.eq_of_perm_of_sorted (hAB.map Prod.fst) hsA hsB
  have hndA : ((sortPairs l1).map Prod.fst).Nodup :=
    (((sortPairs_perm l1).map Prod.fst).nodup_iff).mpr hnd
  exact assoc_eq_of_perm_of_keys_eq hAB hkeys hndA

/-- Structural equality of JSON values up to the insertion order of mapping
keys, at every nesting level: scalars must agree, arrays must agree
pointwise, and objects must agree as key-value collections — some reordering
(`mid.Perm l2`) of a list `mid` with the same key sequence as `l1` and
pointwise structurally-equal values, the keys (as in a Python dict) unique. -/
inductive StructEq : Json → Json → Prop where
  | null : StructEq .null .null
  | bool (b : Bool) : StructEq (.bool b) (.bool b)
  | int (n : Int) : StructEq (.int n) (.int n)
  | str (s : String) : StructEq (.str s) (.str s)
  | arr (l1 l2 : List Json) (h : List.Forall₂ StructEq l1 l2) : StructEq (.arr l1) (.arr l2)
  | obj (l1 mid l2 : List (String × Json))
      (hkeys : l1.map Prod.fst = mid.map Prod.fst)
      (hvals : List.Forall₂ StructEq (l1.map Prod.snd) (mid.map Prod.snd))
      (hp : mid.Perm l2) (hnd : (l1.map Prod.fst).Nodup) : StructEq (.obj l1) (.obj l2)

theorem dumps_eq_of_structEq_aux :
    ∀ n : Nat, ∀ d1 d2 : Json, sizeOf d1 ≤ n → StructEq d1 d2 → dumps d1 = dumps d2 := by
  intro n
  induction n with
  | zero =>
    intro d1 d2 hs _
    exfalso
    cases d1 <;> simp at hs
  | succ n ih =>
    intro d1 d2 hs he
    cases he with
    | null => rfl
    | bool b => rfl
    | int m => rfl
    | str s => rfl
    | arr l1 l2 hf =>
      have hs' : sizeOf l1 ≤ n := by simp at hs; omega
      have key : ∀ la lb : List Json, List.Forall₂ StructEq la lb → sizeOf la ≤ n →
          dumpsList la = dumpsList lb := by
        intro la lb hfl
        induction hfl with
        | nil => intro _; rfl
        | cons hab htl ihtl =>
          rename_i a b ta tb
          intro hsz
          simp at hsz
          have h1 : sizeOf a ≤ n := by omega
          have h2 : sizeOf ta ≤ n := by omega
          simp [dumpsList, ih a b h1 hab, ihtl h2]
      simp [dumps, key l1 l2 hf hs']
    | obj l1 mid l2 hkeys hvals hperm hnd =>
      have hs' : sizeOf l1 ≤ n := by simp at hs; omega
      have key : ∀ la lb : List (String × Json), la.map Prod.fst = lb.map Prod.fst →
          List.Forall₂ StructEq (la.map Prod.snd) (lb.map Prod.snd) → sizeOf la ≤ n →
          dumpsPairs la = dumpsPairs lb := by
        intro la
        induction la with
        | nil =>
          intro lb hk _ _
          cases lb with
          | nil => rfl
          | cons q t => simp at hk
        | cons p t1 ihl =>
          intro lb hk hv hsz
          obtain ⟨k, v⟩ := p
          cases lb with
          | nil => simp at hk
          | cons q t2 =>
            obtain ⟨k2, v2⟩ := q
            simp only [List.map_cons, List.cons.injEq] at hk
            obtain ⟨hk1, hk2⟩ := hk
            simp only [List.map_cons] at hv
            cases hv with
            | cons hvv hvt =>
              simp at hsz
              have h1 : sizeOf v ≤ n := by omega
              have h2 : sizeOf t1 ≤ n := by omega
              simp [dumpsPairs, hk1, ih v v2 h1 hvv, ihl t2 hk2 hvt h2]
      have h1 : dumpsPairs l1 = dumpsPairs mid := key l1 mid hkeys hvals hs'
      have h2 : (dumpsPairs mid).Perm (dumpsPairs l2) := by
        rw [dumpsPairs_eq_map, dumpsPairs_eq_map]
        exact hperm.map _
      have hnd' : ((dumpsPairs l1).map Prod.fst).Nodup := by
        rw [dumpsPairs_keys]; exact hnd
      have hsort : sortPairs (dumpsPairs l1) = sortPairs (dumpsPairs l2) :=
        sortPairs_eq_of_perm (h1 ▸ h2) hnd'
      simp [dumps, hsort]

theorem dumps_eq_of_structEq (d1 d2 : Json) (h : StructEq d1 d2) : dumps d1 = dumps d2 :=
  dumps_eq_of_structEq_aux (sizeOf d1) d1 d2 le_rfl h

/-- C5: key derivation is deterministic — any two key-data values that are
structurally equal up to the insertion order of mapping keys at any nesting
level serialize identically under the canonical (sorted-keys) serialization,
and hence `CacheManager._generate_key` maps them to the same digest. -/
theorem generate_key_deterministic (d1 d2 : Json) (h : StructEq d1 d2) :
    CacheManager.generate_key d1 = CacheManager.generate_key d2 := by
  simp [CacheManager.generate_key, dumps_eq_of_structEq d1 d2 h]

theorem generate_key_deterministic_witness :
    StructEq (.obj [("b", .int 1), ("a", .null)]) (.obj [("a", .null), ("b", .int 1)])
    ∧ CacheManager.generate_key (.obj [("b", .int 1), ("a", .null)])
        = CacheManager.generate_key (.obj [("a", .null), ("b", .int 1)]) := by
  have h : StructEq (.obj [("b", .int 1), ("a", .null)]) (.obj [("a", .null), ("b", .int 1)]) :=
    StructEq.obj _ [("b", .int 1), ("a", .null)] _ rfl
      (List.Forall₂.cons (StructEq.int 1) (List.Forall₂.cons StructEq.null List.Forall₂.nil))
      (List.Perm.swap _ _ _) (by decide)
  exact ⟨h, generate_key_deterministic _ _ h⟩

/-! ## Digest-class claims (C6) -/

/-- C6 counterexample: the DirectoryFingerprint computed by
`code_analyzer._generate_cache_key` at a concrete input is an MD5 digest —
output width 128 bits, not of the 256-bit class the claim asserts for every
CacheKey. -/
theorem directory_fingerprint_uses_md5 :
    (generate_cache_key "/home/user/project" true
        [⟨"/home/user/project/a.py", some (1700000000, 120)⟩]).alg = HashAlg.md5
    ∧ HashAlg.bits (generate_cache_key "/home/user/project" true
        [⟨"/home/user/project/a.py", some (1700000000, 120)⟩]).alg = 128
    ∧ (128 : Nat) ≠ 256 := by
  refine ⟨?_, ?_, by decide⟩ <;>
    simp [generate_cache_key, HashAlg.bits]

/-- C6 amended: `CacheManager._generate_key` produces SHA-256 digests (256-bit
class, lowercase hex in the source), but the DirectoryFingerprint of
`code_analyzer._generate_cache_key` is an MD5 digest (128-bit, a fast hash)
in both of its branches. -/
theorem cache_key_digest_algorithms :
    (∀ d : Json, (CacheManager.generate_key d).alg = HashAlg.sha256
      ∧ HashAlg.bits (CacheManager.generate_key d).alg = 256)
    ∧ (∀ (dir : String) (isDir : Bool) (walk : List WalkFile),
        (generate_cache_key dir isDir walk).alg = HashAlg.md5
      ∧ HashAlg.bits (generate_cache_key dir isDir walk).alg = 128) := by
  constructor
  · intro d
    exact ⟨rfl, rfl⟩
  · intro dir isDir walk
    by_cases h : isDir <;> simp [generate_cache_key, HashAlg.bits, h]

/-! ## Visitor characterization and extractor claims (C8, C10) -/

theorem visitor_spec :
    ∀ N : Nat, ∀ l : List Stmt, sizeOf l ≤ N → ∀ st : AState,
      visitList st l = ⟨st.functions ++ freeFuncs l, st.classes ++ classesOf l⟩
      ∧ visitClassChildren st l
          = ⟨st.functions ++ methodsOf l, st.classes ++ classesInClassBody l⟩ := by
  intro N
  induction N with
  | zero =>
    intro l hl st
    exfalso
    cases l <;> simp at hl
  | succ N ih =>
    intro l hl st
    cases l with
    | nil =>
      simp [visitList, visitClassChildren, freeFuncs, classesOf, methodsOf,
        classesInClassBody]
    | cons s rest =>
      cases s with
      | funcDef n ln a d body =>
        have hb : sizeOf body ≤ N := by simp at hl; omega
        have hr : sizeOf rest ≤ N := by simp at hl; omega
        have ihb := ih body hb
        have ihr := ih rest hr
        refine ⟨?_, ?_⟩ <;>
          simp [visitList, visitClassChildren, fun st => (ihb st).1,
            fun st => (ihr st).1, fun st => (ihr st).2, freeFuncs, methodsOf,
            classesOf, classesInClassBody]
      | classDef n ln bs d body =>
        have hb : sizeOf body ≤ N := by simp at hl; omega
        have hr : sizeOf rest ≤ N := by simp at hl; omega
        have ihb := ih body hb
        have ihr := ih rest hr
        refine ⟨?_, ?_⟩ <;>
          simp [visitList, visitClassChildren, fun st => (ihb st).2,
            fun st => (ihr st).1, fun st => (ihr st).2, freeFuncs, methodsOf,
            classesOf, classesInClassBody]
      | ifStmt body orelse =>
        have hb : sizeOf body ≤ N := by simp at hl; omega
        have ho : sizeOf orelse ≤ N := by simp at hl; omega
        have hr : sizeOf rest ≤ N := by simp at hl; omega
        have ihb := ih body hb
        have iho := ih orelse ho
        have ihr := ih rest hr
        refine ⟨?_, ?_⟩ <;>
          simp [visitList, visitClassChildren, fun st => (ihb st).1,
            fun st => (iho st).1, fun st => (ihr st).1, fun st => (ihr st).2,
            freeFuncs, methodsOf, classesOf, classesInClassBody]
      | other =>
        have hr : sizeOf rest ≤ N := by simp at hl; omega
        have ihr := ih rest hr
        refine ⟨?_, ?_⟩ <;>
          simp [visitList, visitClassChildren, fun st => (ihr st).1,
            fun st => (ihr st).2, freeFuncs, methodsOf, classesOf,
            classesInClassBody]

theorem analyzeModule_spec (body : List Stmt) :
    analyzeModule body = ⟨freeFuncs body, classesOf body⟩ := by
  have h := (visitor_spec (sizeOf body) body le_rfl ⟨[], []⟩).1
  simpa [analyzeModule] using h

/-- C10 counterexample: in `class Foo: def bar(self): def baz(): ...` the
definition `baz` is NOT directly inside a class body (it is directly inside
the method `bar`'s body), yet the analyzer's file-level functions list is
empty — `baz` is swept into `Foo`'s method list instead — contradicting the
claim that every function definition not directly inside a class body appears
in the file-level functions list. -/
theorem nested_method_function_misattributed :
    ((analyzeModule [.classDef "Foo" 1 [] none
        [.funcDef "bar" 2 ["self"] none [.funcDef "baz" 3 [] none []]]]).functions = [])
    ∧ ((analyzeModule [.classDef "Foo" 1 [] none
        [.funcDef "bar" 2 ["self"] none [.funcDef "baz" 3 [] none []]]]).classes.map
          (fun c => (c.name, c.methods.map FuncInfo.name)) = [("Foo", ["bar", "baz"])]) := by
  constructor <;> simp [analyzeModule, visitList, visitClassChildren]

/-- C10 amended: the file-level functions list contains exactly the function
definitions reachable without entering a `class` statement (so functions
nested in other functions are reported alongside genuinely top-level ones,
but a function nested anywhere inside a class's method bodies is attributed
to that class's method list together with the direct methods); a definition
inside a class body that is not a direct function-definition child of the
class (a method under an `if`, or a class nested directly in the class body)
is never visited and appears in no list, while a class nested inside a
method body is appended to the file's class list. -/
theorem analyzer_attribution_characterization :
    ∀ body : List Stmt, (analyzeModule body).functions = freeFuncs body
      ∧ (analyzeModule body).classes = classesOf body := by
  intro body
  rw [analyzeModule_spec body]
  exact ⟨rfl, rfl⟩

/-- C8 (failing run): for `class Foo: def bar(self): ...` plus a free
top-level `def bar(): ...`, the analyzer itself attributes structurally — the
file's functions list holds exactly one `bar` and `Foo`'s method list exactly
one `bar` — but the `top_level_functions` filter of `generate_file_context`
(`code_analyzer.py` lines 475-477) matches by NAME against method names, so
the free `bar` is dropped: the displayed top-level function list contains no
`bar` at all instead of exactly one. -/
theorem free_function_shadowed_by_method_name :
    ((analyzeModule [.classDef "Foo" 1 [] none [.funcDef "bar" 2 ["self"] none []],
        .funcDef "bar" 5 [] none []]).functions.map FuncInfo.name = ["bar"])
    ∧ ((analyzeModule [.classDef "Foo" 1 [] none [.funcDef "bar" 2 ["self"] none []],
        .funcDef "bar" 5 [] none []]).classes.map
          (fun c => (c.name, c.methods.map FuncInfo.name)) = [("Foo", ["bar"])])
    ∧ ((top_level_functions (analyzeModule
        [.classDef "Foo" 1 [] none [.funcDef "bar" 2 ["self"] none []],
         .funcDef "bar" 5 [] none []])).map FuncInfo.name = []) := by
  refine ⟨?_, ?_, ?_⟩ <;>
    simp [analyzeModule, visitList, visitClassChildren, top_level_functions]

/-! ## Prompt assembly claim (C9) -/

/-- C9 (failing run): prompt assembly raises `TypeError` whenever the ranked
class list contains a class dict, because `generate_prompt_for_openai` (line
562) calls `format_class_info(cls, max_docstring_length=150)` while
`format_class_info` (line 399) accepts no such parameter.  At this concrete
input the assembly errors out instead of returning bounded text containing
the user's query. -/
theorem prompt_assembly_raises_on_class_dict :
    generate_prompt_for_openai [] [.dict ⟨"Foo", [], [], none⟩] "o que faz a classe Foo"
      = .error () := rfl

end Jarvis
